import Mathlib

/-!
Verification of the TritonOA ocean-acoustics library against its
natural-language specification.  Each definition below is a shallow
embedding of a function of the Python source; the file ends with one
theorem per claim together with witnesses and counterexamples.

Machine floats are modelled by exact rationals or reals; Python lists
and numpy one-dimensional arrays by Lean lists; numpy matrices by
functions out of Fin types.
-/

namespace TritonOA

/-! ## Generic helpers -/

/-- First index of the minimum of a list, tracking the best value and
best index so far: the semantics of numpy argmin (ties go to the first
occurrence).  Auxiliary recursion. -/
def pyArgminAux : List ℚ → ℚ → ℕ → ℕ → ℕ
  | [], _, best, _ => best
  | x :: xs, bv, best, cur =>
      if x < bv then pyArgminAux xs x cur (cur + 1)
      else pyArgminAux xs bv best (cur + 1)

/-- Index of the first minimum of a list (numpy argmin); 0 on the empty
list, matching numpy argmin on a 0-d array. -/
def pyArgmin : List ℚ → ℕ
  | [] => 0
  | x :: xs => pyArgminAux xs x 0 1

/-! ## C1: frequency scan in the KRAKEN mode-file reader
(tritonoa/at/models/kraken/modes.py, Modes.read_modes).

The mode file stores a table of frequencies; the reader is supposed to
pick the entry nearest the requested frequency and skip earlier
entries.  The source executes
`freqVec = unpack("d", f.read(8))[0]`, reading a single 8-byte double
from the frequency record, so the frequency vector it works with is
the one-element prefix of the file's frequency table. -/

/-- The frequency vector as read by the source: a single double, i.e.
the first element of the file's frequency table. -/
def readFreqVec (freqTable : List ℚ) : List ℚ :=
  freqTable.take 1

/-- `freq_index = np.argmin(abs(freqVec - self.freq))` as computed by
the source, over the frequency vector it actually read. -/
def freqIndexCode (freqTable : List ℚ) (freq : ℚ) : ℕ :=
  pyArgmin ((readFreqVec freqTable).map (fun v => |v - freq|))

/-- The index nearest the requested frequency over the full frequency
table (minimum absolute difference, first on ties): the selection the
specification describes. -/
def nearestIndexSpec (freqTable : List ℚ) (freq : ℚ) : ℕ :=
  pyArgmin (freqTable.map (fun v => |v - freq|))

/-- Record advance for one skipped frequency entry with mode count `M`:
`2 + M + 1 + np.floor((2 * M - 1) / lrecl)` records.  `np.floor` of an
exact ratio of integers is integer floor division (`Int.fdiv`). -/
def advanceRecords (M lrecl : ℤ) : ℤ :=
  2 + M + 1 + Int.fdiv (2 * M - 1) lrecl

/-- The skip loop of `read_modes`: starting from record `iRec`, advance
once per frequency entry to be skipped, using that entry's mode count. -/
def skipFrequencies : List ℤ → ℤ → ℤ → ℤ
  | [], _, iRec => iRec
  | M :: rest, lrecl, iRec => skipFrequencies rest lrecl (iRec + advanceRecords M lrecl)

/-- Record index `iRecProfile` holding the mode count of the selected
entry after the scan loop of `read_modes` runs with frequency index
`idx`: the loop reads the mode count at the current record and, for
every index strictly before `idx`, advances by `advanceRecords`.  The
first mode-count record is record 5 (`iRecProfile = 1 + 4`). -/
def scanRecord (Ms : List ℤ) (lrecl : ℤ) (idx : ℕ) : ℤ :=
  skipFrequencies (Ms.take idx) lrecl 5

/-! ## C2: pressure-field synthesis (tritonoa/sp/physics.py,
pressure_field).  Matrices are functions of Fin indices; `d` receiver
depths, `m` modes, `n` ranges. -/

/-- `range_dep = np.einsum("kl,ij->kij", k, r + r_offsets)`: the
wavenumber column times the broadcast sum of the range row and the
per-depth offset column. -/
noncomputable def range_dep {d m n : ℕ} (k : Fin m → ℂ) (r : Fin n → ℝ)
    (r_offsets : Fin d → ℝ) (km : Fin m) (i : Fin d) (j : Fin n) : ℂ :=
  k km * ((r j + r_offsets i : ℝ) : ℂ)

/-- `hankel = np.exp(1j * range_dep.conj()) / np.sqrt(np.real(range_dep))`. -/
noncomputable def hankel {d m n : ℕ} (k : Fin m → ℂ) (r : Fin n → ℝ)
    (r_offsets : Fin d → ℝ) (km : Fin m) (i : Fin d) (j : Fin n) : ℂ :=
  Complex.exp (Complex.I * (starRingEnd ℂ) (range_dep k r r_offsets km i j)) /
    ((Real.sqrt (range_dep k r r_offsets km i j).re : ℝ) : ℂ)

/-- `phi_comb = phi_src * phi_rec` (row of source eigenfunctions
broadcast against the receiver eigenfunction matrix). -/
def phi_comb {d m : ℕ} (phi_src : Fin m → ℂ) (phi_rec : Fin d → Fin m → ℂ)
    (i : Fin d) (km : Fin m) : ℂ :=
  phi_src km * phi_rec i km

/-- `pressure_field`: mode sum `np.einsum("ik,kij->ij", phi_comb, hankel)`,
scaled by `-np.exp(1j * np.pi / 4) / np.sqrt(8 * np.pi)`, then
conjugated before return. -/
noncomputable def pressure_field {d m n : ℕ} (phi_src : Fin m → ℂ)
    (phi_rec : Fin d → Fin m → ℂ) (k : Fin m → ℂ) (r : Fin n → ℝ)
    (r_offsets : Fin d → ℝ) (i : Fin d) (j : Fin n) : ℂ :=
  (starRingEnd ℂ)
    ((∑ km, phi_comb phi_src phi_rec i km * hankel k r r_offsets km i j) *
      (-(Complex.exp (Complex.I * Real.pi / 4)) / ((Real.sqrt (8 * Real.pi) : ℝ) : ℂ)))

/-- The field as the specification words it: the complex conjugate of
`-exp(i*pi/4)/sqrt(8*pi)` times the sum over modes of
`phi_src(mode) * phi_rec(depth, mode) * exp(i * conj(k) * (r + offset))
/ sqrt(real(k * (r + offset)))`. -/
noncomputable def pressure_field_spec {d m n : ℕ} (phi_src : Fin m → ℂ)
    (phi_rec : Fin d → Fin m → ℂ) (k : Fin m → ℂ) (r : Fin n → ℝ)
    (r_offsets : Fin d → ℝ) (i : Fin d) (j : Fin n) : ℂ :=
  (starRingEnd ℂ)
    ((-(Complex.exp (Complex.I * Real.pi / 4)) / ((Real.sqrt (8 * Real.pi) : ℝ) : ℂ)) *
      ∑ km, phi_src km * phi_rec i km *
        Complex.exp (Complex.I * (starRingEnd ℂ) (k km) * ((r j + r_offsets i : ℝ) : ℂ)) /
          ((Real.sqrt ((k km * ((r j + r_offsets i : ℝ) : ℂ)).re) : ℝ) : ℂ))

/-! ## C3: parameter layering in the matched-field processor
(tritonoa/sp/mfp.py, MatchedFieldProcessor._default_parameter_fmt).
Python dictionaries are modelled as partial maps from keys to values;
`d1 | d2` is union where the right operand wins on collision. -/

/-- Python dictionary union `d1 | d2`: the right dictionary wins on any
key present in both. -/
def dictUnion {α : Type} (d1 d2 : String → Option α) : String → Option α :=
  fun key =>
    match d2 key with
    | some v => some v
    | none => d1 key

/-- The two-entry dictionary literal built by the formatter. -/
def freqTitleDict {α : Type} (freqVal titleVal : α) : String → Option α :=
  fun key =>
    if key = "freq" then some freqVal
    else if key = "title" then some titleVal
    else none

/-- The default parameter formatter:
`fixed_parameters | \x7b"freq": freq, "title": title\x7d | search_parameters`. -/
def default_parameter_fmt {α : Type} (freqVal titleVal : α)
    (fixed search : String → Option α) : String → Option α :=
  dictUnion (dictUnion fixed (freqTitleDict freqVal titleVal)) search

/-! ## C4: the zero-mode path of the reader
(tritonoa/at/models/kraken/modes.py, read_modes lines 181-227 and
_format_modes).  When `M == 0` the source assigns the Python lists
`modes_phi = []` and `modes_k = []`, then unconditionally calls
`_format_modes`, which evaluates `phi[mask, :]` — boolean-mask row
selection.  On a numpy array this selects rows; on a Python list,
subscription with a tuple raises `TypeError`. -/

/-- The value bound to `self.phi`: a Python list (the `M == 0` branch)
or a numpy array of rows. -/
inductive PyPhiVal (α : Type) where
  | pylist (xs : List (List α)) : PyPhiVal α
  | nparray (rows : List (List α)) : PyPhiVal α

/-- Rows selected by a boolean mask from a list of rows. -/
def maskSelect {α : Type} (rows : List (List α)) (mask : List Bool) : List (List α) :=
  (rows.zip mask).filterMap (fun p => if p.2 then some p.1 else none)

/-- Python subscription `phi[mask, :]`: row selection on a numpy array;
on a Python list the subscript is a tuple and Python raises. -/
def getitemMaskRows {α : Type} : PyPhiVal α → List Bool → Except String (List (List α))
  | PyPhiVal.pylist _, _ =>
      Except.error "TypeError: list indices must be integers or slices, not tuple"
  | PyPhiVal.nparray rows, mask => Except.ok (maskSelect rows mask)

/-- The rows held by the value (used where the source passes `phi`
through unchanged). -/
def rowsOf {α : Type} : PyPhiVal α → List (List α)
  | PyPhiVal.pylist xs => xs
  | PyPhiVal.nparray rows => rows

/-- `ind = np.argmin(abs(self.source.z - self.z))`. -/
def argminAbsDiff (srcZ : ℚ) (z : List ℚ) : ℕ :=
  pyArgmin (z.map (fun zv => |srcZ - zv|))

/-- The boolean mask that is `True` exactly at index `ind`. -/
def oneHotMask (z : List ℚ) (ind : ℕ) : List Bool :=
  (List.range z.length).map (fun i => decide (i = ind))

/-- `np.invert(mask)`. -/
def invertMask (mask : List Bool) : List Bool :=
  mask.map not

/-- `Modes._format_modes` restricted to the eigenfunction handling: pick
the depth-grid row nearest the source depth, select `phi_src` by the
one-hot mask, and select `phi_rec` as all rows when the source depth is
among the receiver depths and the complementary rows otherwise. -/
def formatModes {α : Type} (srcZ : ℚ) (recZ : List ℚ) (z : List ℚ)
    (phi : PyPhiVal α) : Except String (List (List α) × List (List α)) :=
  let ind := argminAbsDiff srcZ z
  let mask := oneHotMask z ind
  match getitemMaskRows phi mask with
  | Except.error e => Except.error e
  | Except.ok phi_src =>
      if srcZ ∈ recZ then Except.ok (phi_src, rowsOf phi)
      else
        match getitemMaskRows phi (invertMask mask) with
        | Except.error e => Except.error e
        | Except.ok phi_rec => Except.ok (phi_src, phi_rec)

/-- The tail of `read_modes` followed by `_format_modes`: with mode
count `M = 0` the source binds `modes_phi` to the empty Python list,
otherwise to the numpy eigenfunction array. -/
def readModesFormat (M : ℕ) (phiArr : List (List ℂ)) (srcZ : ℚ)
    (recZ z : List ℚ) : Except String (List (List ℂ) × List (List ℂ)) :=
  formatModes srcZ recZ z
    (if M = 0 then PyPhiVal.pylist [] else PyPhiVal.nparray phiArr)

/-! ## C5: halfspace record decoding
(tritonoa/at/models/kraken/modes.py, read_modes lines 142-179).
A record is a flat sequence of raw fields: a 1-byte boundary-condition
code followed by six 4-byte floats (compressional pair, shear pair,
density, depth).  The reader consumes fields sequentially; the bottom
record is consumed immediately after the top record. -/

/-- A raw field of the mode file: a single byte or a 4-byte float. -/
inductive RawField where
  | byte (b : ℕ) : RawField
  | flt (x : ℚ) : RawField

/-- A decoded halfspace, mirroring the `ModesHalfspace` dataclass. -/
structure ModesHalfspace where
  bc : ℕ
  z : ℚ
  alphaR : ℚ
  betaR : ℚ
  alphaI : ℚ
  betaI : ℚ
  rho : ℚ
  deriving DecidableEq

/-- Consume one byte field. -/
def readByte : List RawField → Option (ℕ × List RawField)
  | RawField.byte b :: rest => some (b, rest)
  | _ => none

/-- Consume one float field. -/
def readFlt : List RawField → Option (ℚ × List RawField)
  | RawField.flt x :: rest => some (x, rest)
  | _ => none

/-- Decode one halfspace record as the source does: boundary-condition
byte, compressional pair `cp`, shear pair `cs`, density, depth; the
compressional speed is `complex(cp[0], cp[1])` but the shear speed is
`complex(cs[1], cs[1])`. -/
def readHalfspace (s : List RawField) : Option (ModesHalfspace × List RawField) := do
  let (bc, s) ← readByte s
  let (cp0, s) ← readFlt s
  let (cp1, s) ← readFlt s
  let (_cs0, s) ← readFlt s
  let (cs1, s) ← readFlt s
  let (rho, s) ← readFlt s
  let (depth, s) ← readFlt s
  some ({ bc := bc, z := depth, alphaR := cp0, betaR := cs1,
          alphaI := cp1, betaI := cs1, rho := rho }, s)

/-- Decode one halfspace record as the specification words it: the
shear speed takes its real part from the first float of the shear pair
and its imaginary part from the second, mirroring the compressional
pair. -/
def readHalfspaceSpec (s : List RawField) : Option (ModesHalfspace × List RawField) := do
  let (bc, s) ← readByte s
  let (cp0, s) ← readFlt s
  let (cp1, s) ← readFlt s
  let (cs0, s) ← readFlt s
  let (cs1, s) ← readFlt s
  let (rho, s) ← readFlt s
  let (depth, s) ← readFlt s
  some ({ bc := bc, z := depth, alphaR := cp0, betaR := cs0,
          alphaI := cp1, betaI := cs1, rho := rho }, s)

/-- Top and bottom halfspace records, the bottom consumed immediately
after the top with no intervening seek. -/
def readTopBottom (s : List RawField) : Option (ModesHalfspace × ModesHalfspace) := do
  let (top, s) ← readHalfspace s
  let (bot, _) ← readHalfspace s
  some (top, bot)

/-- Top and bottom records under the specification's decoding. -/
def readTopBottomSpec (s : List RawField) : Option (ModesHalfspace × ModesHalfspace) := do
  let (top, s) ← readHalfspaceSpec s
  let (bot, _) ← readHalfspaceSpec s
  some (top, bot)

/-! ## C6 and C9: the beamformer (tritonoa/sp/beamforming.py).
The source of `beamformer` normalizes each replica column to unit
Euclidean norm and dispatches on the estimator name; the line
`K = enforce_hermitian(K)` is commented out, so `K` reaches the
estimator unchanged.  The eigendecomposition estimators (music, eigen)
are outside this embedding. -/

/-- `enforce_hermitian(A) = (A + A.conj().T) / 2`. -/
noncomputable def enforce_hermitian {m : ℕ} (A : Matrix (Fin m) (Fin m) ℂ) :
    Matrix (Fin m) (Fin m) ℂ :=
  fun i j => (A i j + (starRingEnd ℂ) (A j i)) / 2

/-- `np.linalg.norm(r_hat, axis=0)`: Euclidean norm of column `j`. -/
noncomputable def columnNorm {m n : ℕ} (R : Matrix (Fin m) (Fin n) ℂ) (j : Fin n) : ℝ :=
  Real.sqrt (∑ i, Complex.normSq (R i j))

/-- `w = r_hat / np.linalg.norm(r_hat, axis=0)`. -/
noncomputable def normalizeReplica {m n : ℕ} (R : Matrix (Fin m) (Fin n) ℂ) :
    Matrix (Fin m) (Fin n) ℂ :=
  fun i j => R i j / ((columnNorm R j : ℝ) : ℂ)

/-- Estimator names handled by this embedding. -/
inductive BFType where
  | cbf : BFType
  | cbf_ml : BFType
  | mvdr : BFType

/-- `bf_cbf(K, w) = np.diag(w.conj().T.dot(K).dot(w))`. -/
noncomputable def bf_cbf {m n : ℕ} (K : Matrix (Fin m) (Fin m) ℂ)
    (w : Matrix (Fin m) (Fin n) ℂ) (j : Fin n) : ℂ :=
  ∑ i, ∑ i2, (starRingEnd ℂ) (w i j) * K i i2 * w i2 j

/-- `bf_cbf_ml(K, w) = np.diag(np.trace(K) - w.conj().T.dot(K).dot(w))`. -/
noncomputable def bf_cbf_ml {m n : ℕ} (K : Matrix (Fin m) (Fin m) ℂ)
    (w : Matrix (Fin m) (Fin n) ℂ) (j : Fin n) : ℂ :=
  (∑ i, K i i) - bf_cbf K w j

/-- `bf_mvdr(K, w) = np.diag(1 / (w.conj().T.dot(np.linalg.inv(K)).dot(w)))`. -/
noncomputable def bf_mvdr {m n : ℕ} (K : Matrix (Fin m) (Fin m) ℂ)
    (w : Matrix (Fin m) (Fin n) ℂ) (j : Fin n) : ℂ :=
  1 / (∑ i, ∑ i2, (starRingEnd ℂ) (w i j) * K⁻¹ i i2 * w i2 j)

/-- Estimator dispatch of `beamformer`. -/
noncomputable def bfEstimate {m n : ℕ} (atype : BFType)
    (K : Matrix (Fin m) (Fin m) ℂ) (w : Matrix (Fin m) (Fin n) ℂ) : Fin n → ℂ :=
  match atype with
  | BFType.cbf => bf_cbf K w
  | BFType.cbf_ml => bf_cbf_ml K w
  | BFType.mvdr => bf_mvdr K w

/-- `beamformer(K, r_hat, atype, abs_value=True)`: normalize the
replica columns, evaluate the selected estimator on `K` as given, and
return the absolute value. -/
noncomputable def beamformer {m n : ℕ} (atype : BFType)
    (K : Matrix (Fin m) (Fin m) ℂ) (r_hat : Matrix (Fin m) (Fin n) ℂ)
    (j : Fin n) : ℝ :=
  Complex.abs (bfEstimate atype K (normalizeReplica r_hat) j)

/-! ## C7: temporal covariance averaging
(tritonoa/sp/processing.py, average_covariance). -/

/-- `K.shape[0] // covariance_averaging`: Python floor division. -/
def pyFloorDiv (a b : ℕ) : ℕ := a / b

/-- `np.ceil(K.shape[0] // covariance_averaging).astype(int)`: the
ceiling of an already-integer quantity. -/
def numAvgSegments (N k : ℕ) : ℕ :=
  Int.toNat ⌈((pyFloorDiv N k : ℤ) : ℚ)⌉

/-- Section sizes of `np.array_split` on a length-`L` axis into `n`
parts: the first `L % n` parts get `L / n + 1` entries, the rest `L / n`. -/
def arraySplitSizes (L n : ℕ) : List ℕ :=
  (List.range n).map (fun i => L / n + if i < L % n then 1 else 0)

/-- Split a list into consecutive chunks of the given sizes. -/
def splitBySizes {α : Type} : List ℕ → List α → List (List α)
  | [], _ => []
  | s :: rest, l => l.take s :: splitBySizes rest (l.drop s)

/-- `np.array_split(K, n, axis=0)`. -/
def arraySplit {α : Type} (l : List α) (n : ℕ) : List (List α) :=
  splitBySizes (arraySplitSizes l.length n) l

/-- `np.mean(K_sub, axis=0)`: elementwise mean of a block of matrices. -/
noncomputable def blockMean {ch : ℕ} (block : List (Matrix (Fin ch) (Fin ch) ℂ)) :
    Matrix (Fin ch) (Fin ch) ℂ :=
  fun i j => (block.map (fun A => A i j)).sum / (block.length : ℂ)

/-- `average_covariance`: split the stack of `N` covariance matrices
into `numAvgSegments N k` contiguous blocks and average each block. -/
noncomputable def average_covariance {ch : ℕ} (K : List (Matrix (Fin ch) (Fin ch) ℂ))
    (covariance_averaging : ℕ) : List (Matrix (Fin ch) (Fin ch) ℂ) :=
  (arraySplit K (numAvgSegments K.length covariance_averaging)).map blockMean

/-! ## C8: receiver range formatting (tritonoa/at/env/array.py,
Receiver.format_range).  The source drops the first element when it is
exactly zero, then takes min, max and length of what is left; an empty
input raises IndexError at `self.r[0]` and an empty result raises
ValueError at `np.min`, both modelled by `none`. -/

/-- `Receiver.format_range` restricted to the stored range vector. -/
def format_range (r : List ℚ) : Option (List ℚ) :=
  match r with
  | [] => none
  | x :: rest =>
      let r2 := if x = 0 then rest else x :: rest
      if r2 = [] then none else some r2

/-! ## C10: array depth rounding (tritonoa/at/env/array.py,
Array.__post_init__): `self.z = np.atleast_1d(np.around(self.z, 3))`
and `self.nz = len(self.z)`.  `np.around` rounds half to even. -/

/-- Round to the nearest integer, ties to even (numpy rounding). -/
def npRoundHalfEven (y : ℚ) : ℤ :=
  if y - (⌊y⌋ : ℚ) < 1/2 then ⌊y⌋
  else if 1/2 < y - (⌊y⌋ : ℚ) then ⌊y⌋ + 1
  else if Even ⌊y⌋ then ⌊y⌋ else ⌊y⌋ + 1

/-- `np.around(x, 3)`: round at the third decimal place. -/
def around3 (x : ℚ) : ℚ :=
  ((npRoundHalfEven (1000 * x) : ℤ) : ℚ) / 1000

/-- The stored depth vector of `Array.__post_init__`. -/
def arrayZ (z : List ℚ) : List ℚ :=
  z.map around3

/-- The stored element count `nz`. -/
def arrayNz (z : List ℚ) : ℕ :=
  (arrayZ z).length

/-- Concrete two-record halfspace stream: boundary code, compressional
pair (1600, 1), shear pair (1500, 10), density 1000, depth 0, followed
by a bottom record. -/
def hsStreamExample : List RawField :=
  [RawField.byte 65, RawField.flt 1600, RawField.flt 1, RawField.flt 1500,
   RawField.flt 10, RawField.flt 1000, RawField.flt 0,
   RawField.byte 82, RawField.flt 1800, RawField.flt 2, RawField.flt 600,
   RawField.flt 20, RawField.flt 1500, RawField.flt 5000]

/-- Concrete stack of five 1-by-1 covariance matrices. -/
noncomputable def covFive : List (Matrix (Fin 1) (Fin 1) ℂ) :=
  List.replicate 5 (fun _ _ => 1)

end TritonOA

namespace TritonOA

/-! ## Theorems -/

/-- C1: The specification requires the mode-file frequency scan to
select the index nearest the requested frequency over the frequency
table and to advance by `2 + M + 1 + floor((2M-1)/record_length)`
records per skipped entry, landing at the selected entry's mode-count
record.  The source reads a single 8-byte double as the whole
frequency vector, so its argmin is always index 0 and the scan never
advances: for the table [100, 200, 300] with mode counts [5, 0, 10]
and record length 40, requesting frequency 300 the source lands at
record 5 (entry 0) while the claim requires record 15 (entry 2). -/
theorem C1_frequency_scan_ignores_frequency_table :
    freqIndexCode [100, 200, 300] 300 = 0 ∧
    nearestIndexSpec [100, 200, 300] 300 = 2 ∧
    scanRecord [5, 0, 10] 40 (freqIndexCode [100, 200, 300] 300) = 5 ∧
    scanRecord [5, 0, 10] 40 (nearestIndexSpec [100, 200, 300] 300) = 15 ∧
    (5 : ℤ) ≠ 15 := by
  have hspec : nearestIndexSpec [100, 200, 300] 300 = 2 := by
    norm_num [nearestIndexSpec, pyArgmin, pyArgminAux]
  refine ⟨rfl, hspec, rfl, ?_, by decide⟩
  rw [hspec]
  decide

/-- C3 counterexample: on the key "freq", present both in the
frequency/title layer (value 100) and in the per-call search layer
(value 999), the formatter returns the search value, so the
frequency/title entry does not win over the search entry as the claim
states. -/
theorem C3_counterexample :
    default_parameter_fmt (100 : ℚ) 0 (fun _ => none)
        (fun key => if key = "freq" then some 999 else none) "freq" = some 999 ∧
    freqTitleDict (100 : ℚ) 0 "freq" = some 100 ∧
    some (999 : ℚ) ≠ some (100 : ℚ) := by
  refine ⟨rfl, rfl, by decide⟩

/-- C3 amended: the default parameter formatter layers
fixed baseline < frequency/title override < per-call search
parameters, later layers winning on key collision: a key present in
the search dictionary takes the search value; otherwise a key present
in the frequency/title dictionary takes that value; otherwise the
fixed value is used. -/
theorem C3_parameter_layering_amended {α : Type} (freqVal titleVal : α)
    (fixed search : String → Option α) (key : String) :
    (∀ v, search key = some v →
      default_parameter_fmt freqVal titleVal fixed search key = some v) ∧
    (search key = none → freqTitleDict freqVal titleVal key ≠ none →
      default_parameter_fmt freqVal titleVal fixed search key =
        freqTitleDict freqVal titleVal key) ∧
    (search key = none → freqTitleDict freqVal titleVal key = none →
      default_parameter_fmt freqVal titleVal fixed search key = fixed key) := by
  unfold default_parameter_fmt dictUnion
  refine ⟨fun v hv => by rw [hv], fun hs hft => ?_, fun hs hft => ?_⟩
  · rw [hs]
    cases h : freqTitleDict freqVal titleVal key with
    | none => exact absurd h hft
    | some v => rfl
  · rw [hs, hft]

/-- C3 witness: with an empty search layer, the key "title" resolves to
the frequency/title entry. -/
theorem C3_witness :
    default_parameter_fmt (100 : ℚ) 0 (fun _ => none) (fun _ => none) "title" =
      freqTitleDict (100 : ℚ) 0 "title" :=
  (C3_parameter_layering_amended (100 : ℚ) 0 (fun _ => none) (fun _ => none)
      "title").2.1 rfl (by simp [freqTitleDict])

/-- C4: the claim states that a mode file whose selected entry has
mode count 0 is read without error, yielding empty eigenfunctions and
wavenumbers.  In the source, the `M == 0` branch binds the
eigenfunctions to an empty Python list, and `_format_modes` then
subscripts it with a boolean mask and a slice, which raises TypeError:
with source depth 50, receiver depths [0, 100] and depth grid
[0, 50, 100] the read fails instead of returning the empty result. -/
theorem C4_zero_modes_read_raises_type_error :
    readModesFormat 0 [] 50 [0, 100] [0, 50, 100] =
      Except.error "TypeError: list indices must be integers or slices, not tuple" := rfl

/-- C5: the claim states that each halfspace record decodes the
complex shear speed with real part from the first float of the shear
pair and imaginary part from the second.  The source computes
`complex(cs[1], cs[1])`, taking both parts from the second float: on a
record whose shear pair is (1500, 10), the decoded top shear speed is
10 + 10i where the claim requires 1500 + 10i (the remaining layout —
boundary-condition byte, compressional pair, density, depth, bottom
record immediately after the top — decodes as claimed). -/
theorem C5_shear_speed_from_wrong_float :
    (readTopBottom hsStreamExample).map (fun p => (p.1.betaR, p.1.betaI)) =
      some (10, 10) ∧
    (readTopBottomSpec hsStreamExample).map (fun p => (p.1.betaR, p.1.betaI)) =
      some (1500, 10) ∧
    (readTopBottom hsStreamExample).map (fun p => (p.1.bc, p.1.alphaR, p.1.alphaI, p.1.rho, p.1.z, p.2.bc, p.2.alphaR)) =
      (readTopBottomSpec hsStreamExample).map (fun p => (p.1.bc, p.1.alphaR, p.1.alphaI, p.1.rho, p.1.z, p.2.bc, p.2.alphaR)) ∧
    ((10 : ℚ), (10 : ℚ)) ≠ ((1500 : ℚ), (10 : ℚ)) := by
  refine ⟨rfl, rfl, rfl, by norm_num⟩

/-- C7: the claim states that temporal averaging reduces N covariance
matrices to ceil(N/k) averaged matrices.  The source computes
`np.ceil(K.shape[0] // covariance_averaging)`: the ceiling of an
integer floor division, i.e. floor(N/k).  For N = 5 matrices and
averaging factor k = 2 the output holds 2 matrices where the claim
requires ceil(5/2) = 3. -/
theorem C7_average_covariance_uses_floor_not_ceil :
    (average_covariance covFive 2).length = 2 ∧
    Int.toNat ⌈((covFive.length : ℚ)) / 2⌉ = 3 ∧
    (2 : ℕ) ≠ 3 := by
  refine ⟨?_, ?_, by decide⟩
  · simp only [average_covariance, List.length_map]
    rfl
  · rw [show ((covFive.length : ℚ)) = 5 from by
      rw [show covFive.length = 5 from rfl]; norm_num]
    rw [show (⌈(5 : ℚ) / 2⌉ : ℤ) = 3 from by rw [Int.ceil_eq_iff] <;> norm_num]
    rfl

/-- C8 counterexample: the input range vector [1, 0] holds an exact
zero past the first position; the stored vector keeps it, so the
stored range vector is not free of exact zeros as the claim states. -/
theorem C8_counterexample :
    format_range [1, 0] = some [1, 0] ∧ (0 : ℚ) ∈ ([1, 0] : List ℚ) := by
  refine ⟨rfl, by decide⟩

/-- C8 amended: only a leading exact zero is removed from the range
vector: when the first element is exactly 0 (and another element
follows) the stored vector is the tail, with length one less than the
input; when the first element is nonzero the stored vector equals the
input — an exact zero in any later position is retained. -/
theorem C8_format_range_amended (x : ℚ) (rest : List ℚ) :
    (x = 0 → rest ≠ [] →
      format_range (x :: rest) = some rest ∧
        rest.length = (x :: rest).length - 1) ∧
    (x ≠ 0 → format_range (x :: rest) = some (x :: rest)) := by
  constructor
  · intro hx hrest
    subst hx
    simp [format_range, hrest]
  · intro hx
    simp [format_range, hx]

/-- C8 witness: the input [0, 1] stores [1], of length one less. -/
theorem C8_witness :
    format_range [0, 1] = some [1] ∧
      ([1] : List ℚ).length = ([0, 1] : List ℚ).length - 1 :=
  (C8_format_range_amended 0 [1]).1 rfl (by simp)

/-- C10 counterexample: the depths 0.0004 and 0.0006 differ by 0.0002,
less than half a millimeter, yet they round at the third decimal to 0
and 0.001 respectively, so their stored values differ: depths within
half a millimeter of each other need not compare equal after
construction. -/
theorem C10_counterexample :
    |(4 : ℚ)/10000 - 6/10000| < 1/2000 ∧
      arrayZ [4/10000] ≠ arrayZ [6/10000] := by
  constructor
  · rw [show (4 : ℚ)/10000 - 6/10000 = -(1/5000) from by norm_num, abs_neg,
      abs_of_pos (by norm_num)]
    norm_num
  · norm_num [arrayZ, around3, npRoundHalfEven]

/-- Rounding to the nearest integer with ties to even moves a value by
at most one half. -/
theorem abs_sub_npRoundHalfEven_le (y : ℚ) :
    |y - (npRoundHalfEven y : ℚ)| ≤ 1/2 := by
  have h0 : (⌊y⌋ : ℚ) ≤ y := Int.floor_le y
  have h1 : y < (⌊y⌋ : ℚ) + 1 := Int.lt_floor_add_one y
  unfold npRoundHalfEven
  split_ifs with hl hg he
  · rw [abs_of_nonneg (by linarith)]
    linarith
  · rw [abs_of_nonpos (by push_cast; linarith)]
    push_cast
    linarith
  · rw [abs_of_nonneg (by linarith)]
    linarith
  · rw [abs_of_nonpos (by push_cast; linarith)]
    push_cast
    linarith

/-- Two depths with the same third-decimal rounding differ by at most
one millimeter. -/
theorem around3_eq_imp_close (a b : ℚ) (h : around3 a = around3 b) :
    |a - b| ≤ 1/1000 := by
  have hr : ((npRoundHalfEven (1000 * a) : ℤ) : ℚ) =
      ((npRoundHalfEven (1000 * b) : ℤ) : ℚ) := by
    unfold around3 at h
    field_simp at h
    exact_mod_cast h
  have ha := abs_sub_npRoundHalfEven_le (1000 * a)
  have hb := abs_sub_npRoundHalfEven_le (1000 * b)
  rw [hr] at ha
  have h2 : |1000 * a - 1000 * b| ≤ 1 := by
    have hsplit : 1000 * a - 1000 * b =
        (1000 * a - ((npRoundHalfEven (1000 * b) : ℤ) : ℚ)) +
          (((npRoundHalfEven (1000 * b) : ℤ) : ℚ) - 1000 * b) := by ring
    rw [hsplit]
    refine le_trans (abs_add _ _) ?_
    rw [abs_sub_comm (((npRoundHalfEven (1000 * b) : ℤ) : ℚ)) (1000 * b)]
    linarith
  have h3 : |a - b| = |1000 * a - 1000 * b| / 1000 := by
    rw [show 1000 * a - 1000 * b = 1000 * (a - b) from by ring, abs_mul,
      abs_of_pos (show (0 : ℚ) < 1000 from by norm_num)]
    ring
  rw [h3]
  linarith

/-- C10 amended: the stored depth vector is the input rounded at the
third decimal (coerced to at least 1-D) and the stored element count
is its length; two depths whose values round to the same millimeter
value compare equal after construction — such depths differ by at most
one millimeter — but depths differing by less than half a millimeter
need not compare equal (they may straddle a rounding boundary). -/
theorem C10_array_depth_rounding_amended (z : List ℚ) :
    arrayZ z = z.map around3 ∧ arrayNz z = z.length ∧
    ∀ a b : ℚ, around3 a = around3 b → |a - b| ≤ 1/1000 :=
  ⟨rfl, by simp [arrayNz, arrayZ], fun a b h => around3_eq_imp_close a b h⟩

/-- C10 witness: a singleton depth vector stores one element, and equal
roundings bound the depth difference at the concrete pair (0, 0). -/
theorem C10_witness :
    arrayNz [(0 : ℚ)] = 1 ∧ |(0 : ℚ) - 0| ≤ 1/1000 :=
  ⟨(C10_array_depth_rounding_amended [0]).2.1,
    (C10_array_depth_rounding_amended [0]).2.2 0 0 rfl⟩

/-- C2: for nonempty mode sets and strictly positive ranges (with the
per-depth offsets added), the synthesized field of `pressure_field`
equals the conjugate of `-exp(i*pi/4)/sqrt(8*pi)` times the mode sum of
`phi_src * phi_rec * exp(i*conj(k)*(r+offset)) / sqrt(re(k*(r+offset)))`,
one entry per receiver depth and range. -/
theorem C2_pressure_field_matches_reference {d m n : ℕ}
    (phi_src : Fin m → ℂ) (phi_rec : Fin d → Fin m → ℂ) (k : Fin m → ℂ)
    (r : Fin n → ℝ) (r_offsets : Fin d → ℝ)
    (hm : 0 < m) (hr : ∀ j, 0 < r j) :
    pressure_field phi_src phi_rec k r r_offsets =
      pressure_field_spec phi_src phi_rec k r r_offsets := by
  funext i j
  unfold pressure_field pressure_field_spec phi_comb hankel range_dep
  congr 1
  rw [mul_comm]
  congr 1
  refine Finset.sum_congr rfl (fun km _ => ?_)
  rw [map_mul, Complex.conj_ofReal, mul_div_assoc, ← mul_assoc]

/-- C2 witness: the equality at one mode, one depth, one range of 1
with no offset. -/
theorem C2_witness :
    (0 : ℝ) < 1 ∧
    pressure_field (fun _ : Fin 1 => 1) (fun (_ : Fin 1) _ => 1) (fun _ => 1)
        (fun _ : Fin 1 => 1) (fun _ => 0) =
      pressure_field_spec (fun _ : Fin 1 => 1) (fun (_ : Fin 1) _ => 1) (fun _ => 1)
        (fun _ : Fin 1 => 1) (fun _ => 0) :=
  ⟨one_pos,
    C2_pressure_field_matches_reference _ _ _ _ _ (by norm_num) (fun _ => one_pos)⟩

/-- C6 counterexample: for the non-Hermitian 1-by-1 covariance matrix
[[i]] and replica [[1]], the source beamformer returns |i| = 1 while
evaluating the conventional estimator on the Hermitian enforcement
(K + K^H)/2 = [[0]] would return 0: the estimator is evaluated on K
itself, not on its Hermitian enforcement. -/
theorem C6_counterexample :
    beamformer BFType.cbf (fun (_ : Fin 1) (_ : Fin 1) => Complex.I)
      (fun (_ : Fin 1) (_ : Fin 1) => (1 : ℂ)) (0 : Fin 1) = 1 ∧
    Complex.abs (bfEstimate BFType.cbf
      (enforce_hermitian (fun (_ : Fin 1) (_ : Fin 1) => Complex.I))
      (normalizeReplica (fun (_ : Fin 1) (_ : Fin 1) => (1 : ℂ))) (0 : Fin 1)) = 0 ∧
    (1 : ℝ) ≠ 0 := by
  refine ⟨?_, ?_, one_ne_zero⟩
  · simp [beamformer, bfEstimate, bf_cbf, normalizeReplica, columnNorm,
      Fin.sum_univ_one, Complex.normSq_one, Real.sqrt_one]
  · simp [bfEstimate, bf_cbf, normalizeReplica, columnNorm, enforce_hermitian,
      Fin.sum_univ_one, Complex.normSq_one, Real.sqrt_one, Complex.conj_I]

/-- C6 amended: the beamformer normalizes each replica column to unit
Euclidean norm before evaluating the selected estimator, but evaluates
the estimator on `K` exactly as given (the Hermitian enforcement call
is disabled in the source); for Hermitian `K` this coincides with
evaluating on (K + K^H)/2. -/
theorem C6_beamformer_hermitian_amended {m n : ℕ} (atype : BFType)
    (K : Matrix (Fin m) (Fin m) ℂ) (r_hat : Matrix (Fin m) (Fin n) ℂ)
    (hK : ∀ i j, (starRingEnd ℂ) (K j i) = K i j) :
    beamformer atype K r_hat = fun j =>
      Complex.abs (bfEstimate atype (enforce_hermitian K) (normalizeReplica r_hat) j) := by
  have hEnf : enforce_hermitian K = K := by
    funext i j
    show (K i j + (starRingEnd ℂ) (K j i)) / 2 = K i j
    rw [hK i j]
    ring
  rw [hEnf]
  rfl

/-- C6 witness: the amended statement at the Hermitian 1-by-1 matrix
[[2]] with replica [[1]]. -/
theorem C6_witness :
    beamformer BFType.cbf (fun (_ : Fin 1) (_ : Fin 1) => (2 : ℂ))
        (fun (_ : Fin 1) (_ : Fin 1) => (1 : ℂ)) =
      fun j => Complex.abs (bfEstimate BFType.cbf
        (enforce_hermitian (fun (_ : Fin 1) (_ : Fin 1) => (2 : ℂ)))
        (normalizeReplica (fun (_ : Fin 1) (_ : Fin 1) => (1 : ℂ))) j) :=
  C6_beamformer_hermitian_amended BFType.cbf _ _ (fun _ _ => map_ofNat _ 2)

/-- Multiplying both replica factors of a quadratic-form term by a
unimodular scalar leaves the term unchanged. -/
theorem conj_unit_mul_term (x a b κ : ℂ) (hx : (starRingEnd ℂ) x * x = 1) :
    (starRingEnd ℂ) (x * a) * κ * (x * b) = (starRingEnd ℂ) a * κ * b := by
  rw [map_mul]
  calc (starRingEnd ℂ) x * (starRingEnd ℂ) a * κ * (x * b)
      = ((starRingEnd ℂ) x * x) * ((starRingEnd ℂ) a * κ * b) := by ring
    _ = (starRingEnd ℂ) a * κ * b := by rw [hx, one_mul]

/-- C9: scaling the replica vector by any nonzero complex scalar leaves
the conventional beamformer's absolute response unchanged: the replica
is unit-normalized internally, so the scale cancels exactly. -/
theorem C9_cbf_scale_invariance {m : ℕ} (K : Matrix (Fin m) (Fin m) ℂ)
    (w : Fin m → ℂ) (c : ℂ) (hw : ∃ i, w i ≠ 0) (hc : c ≠ 0) :
    beamformer BFType.cbf K (fun i (_ : Fin 1) => c * w i) =
      beamformer BFType.cbf K (fun i (_ : Fin 1) => w i) := by
  obtain ⟨i0, hi0⟩ := hw
  have hS : 0 < ∑ i, Complex.normSq (w i) :=
    Finset.sum_pos' (fun i _ => Complex.normSq_nonneg _)
      ⟨i0, Finset.mem_univ i0, Complex.normSq_pos.mpr hi0⟩
  have hsc : ∀ j : Fin 1, columnNorm (fun i (_ : Fin 1) => c * w i) j =
      Complex.abs c * columnNorm (fun i (_ : Fin 1) => w i) j := by
    intro j
    unfold columnNorm
    rw [Finset.sum_congr rfl (fun i _ => Complex.normSq_mul c (w i)),
      ← Finset.mul_sum, Real.sqrt_mul (Complex.normSq_nonneg c), ← Complex.abs_apply]
  have hnorm : normalizeReplica (fun i (_ : Fin 1) => c * w i) =
      fun i j => (c / ((Complex.abs c : ℝ) : ℂ)) *
        normalizeReplica (fun i (_ : Fin 1) => w i) i j := by
    funext i j
    unfold normalizeReplica
    rw [hsc j, Complex.ofReal_mul, div_mul_div_comm]
  have huu : (starRingEnd ℂ) (c / ((Complex.abs c : ℝ) : ℂ)) *
      (c / ((Complex.abs c : ℝ) : ℂ)) = 1 := by
    rw [map_div₀, Complex.conj_ofReal, div_mul_div_comm,
      mul_comm ((starRingEnd ℂ) c) c, Complex.mul_conj, ← Complex.ofReal_mul,
      Complex.mul_self_abs]
    exact div_self (Complex.ofReal_ne_zero.mpr (Complex.normSq_pos.mpr hc).ne')
  funext j
  show Complex.abs (bf_cbf K (normalizeReplica (fun i (_ : Fin 1) => c * w i)) j) =
    Complex.abs (bf_cbf K (normalizeReplica (fun i (_ : Fin 1) => w i)) j)
  rw [hnorm]
  congr 1
  unfold bf_cbf
  refine Finset.sum_congr rfl (fun i _ => ?_)
  refine Finset.sum_congr rfl (fun i2 _ => ?_)
  exact conj_unit_mul_term _ _ _ _ huu

/-- C9 witness: the invariance at the 1-by-1 covariance [[1]], replica
[1], scale 2. -/
theorem C9_witness :
    beamformer BFType.cbf (fun (_ : Fin 1) (_ : Fin 1) => (1 : ℂ))
        (fun (_ : Fin 1) (_ : Fin 1) => (2 : ℂ) * 1) =
      beamformer BFType.cbf (fun (_ : Fin 1) (_ : Fin 1) => (1 : ℂ))
        (fun (_ : Fin 1) (_ : Fin 1) => (1 : ℂ)) :=
  C9_cbf_scale_invariance (fun _ _ => 1) (fun _ => 1) 2 ⟨0, one_ne_zero⟩
    (by norm_num)

end TritonOA
